import Mathlib

/-!
Shallow embedding of the task manager core in `src/task_manager.py`.

Modelling conventions, all read off the Python source:

* Timestamps: `datetime.now().isoformat()` is modelled by threading an
  explicit `now : String` argument into every function that captures the
  current time (`Task` construction inside `add_task`, and the default in
  `Task.from_dict`).
* The backing file is the `File` type: the path may be absent
  (`File.missing`, `os.path.exists` is false), present but
  unreadable/unparseable (`File.corrupt`, covering a failing `open`,
  `json.load`, or a record missing a required key so that the list
  comprehension in `load_tasks` raises), or a parsed JSON array of task
  records (`File.valid`).
* A Python dict produced by `Task.to_dict` / consumed by `Task.from_dict`
  is the structure `TaskDict`; the `created_at` key, read with
  `data.get`, is an `Option String`.
* `save_tasks` can fail for any I/O reason; the Boolean `ok` argument
  selects whether the write succeeds.  On failure the file keeps its old
  content and the error message printed by the `except` clause is
  returned on an explicit output channel, the final `List String` of each
  operation.  No operation returns `Except`: the Python code catches
  every exception at the I/O boundary, so the operations are total.
-/

namespace TaskMgr

structure Task where
  id : Int
  description : String
  completed : Bool
  created_at : String

deriving instance DecidableEq for Task

structure TaskDict where
  id : Int
  description : String
  completed : Bool
  created_at : Option String

deriving instance DecidableEq for TaskDict

/-- Python `Task.to_dict`: all four keys are always emitted. -/
def Task.to_dict (t : Task) : TaskDict :=
  { id := t.id, description := t.description, completed := t.completed,
    created_at := some t.created_at }

/-- Python `Task.from_dict`: `id`, `description`, `completed` are required keys;
`created_at` falls back to the current timestamp via `data.get`. -/
def Task.from_dict (now : String) (d : TaskDict) : Task :=
  { id := d.id, description := d.description, completed := d.completed,
    created_at := d.created_at.getD now }

/-- The backing file: absent, unreadable/unparseable, or a parsed array. -/
inductive File where
  | missing : File
  | corrupt : File
  | valid : List TaskDict → File

deriving instance DecidableEq for File

/-- The in-memory state of a `TaskManager` (the bound filename is kept
outside the state: the embedding passes the file content explicitly). -/
structure TaskManager where
  tasks : List Task
  next_id : Int

deriving instance DecidableEq for TaskManager

/-- Python `TaskManager.save_tasks`: on success the file is overwritten with the
serialized collection; on failure the file is unchanged and an error
message is printed. -/
def TaskManager.save_tasks (ok : Bool) (s : TaskManager) (f : File) :
    File × List String :=
  if ok then (File.valid (s.tasks.map Task.to_dict), [])
  else (f, ["Error saving tasks"])

/-- The Python `max(task.id for task in self.tasks)` over a nonempty
collection, `none` when the collection is empty. -/
def maxTaskId : List Task → Option Int
  | [] => none
  | t :: rest => some ((rest.map Task.id).foldl max t.id)

/-- Python `TaskManager.load_tasks`: a missing file leaves the state alone; a
read/parse failure prints an error and leaves the state alone; a parsed
array replaces `tasks`, and `next_id` is recomputed as `max(ids) + 1`
only when the loaded collection is nonempty. -/
def TaskManager.load_tasks (now : String) (f : File) (s : TaskManager) :
    TaskManager × List String :=
  match f with
  | File.missing => (s, [])
  | File.corrupt => (s, ["Error loading tasks"])
  | File.valid ds =>
      match ds.map (Task.from_dict now) with
      | [] => ({ s with tasks := [] }, [])
      | t :: rest =>
          ({ s with
              tasks := t :: rest
              next_id := (rest.map Task.id).foldl max t.id + 1 }, [])

/-- Python `TaskManager.__init__`: start with an empty collection and
`next_id = 1`, then hydrate from the file. -/
def TaskManager.init (now : String) (f : File) : TaskManager × List String :=
  TaskManager.load_tasks now f { tasks := [], next_id := 1 }

/-- Python `TaskManager.add_task`: construct a task bearing `next_id`, append it,
increment the counter, persist, return the task. -/
def TaskManager.add_task (ok : Bool) (now desc : String) (s : TaskManager)
    (f : File) : Task × TaskManager × File × List String :=
  let t : Task :=
    { id := s.next_id, description := desc, completed := false, created_at := now }
  let s' : TaskManager := { tasks := s.tasks ++ [t], next_id := s.next_id + 1 }
  let fm := TaskManager.save_tasks ok s' f
  (t, s', fm.1, fm.2)

/-- Python `TaskManager.list_tasks`. -/
def TaskManager.list_tasks (show_completed : Bool) (s : TaskManager) : List Task :=
  if show_completed then s.tasks else s.tasks.filter (fun t => !t.completed)

/-- The loop of `complete_task`: mark the first task bearing `tid` as
completed, `none` when no task matches. -/
def completeFirst (tid : Int) : List Task → Option (List Task)
  | [] => none
  | t :: ts =>
      if t.id = tid then some ({ t with completed := true } :: ts)
      else (completeFirst tid ts).map (fun ts' => t :: ts')

/-- The loop of `delete_task`: remove the first task bearing `tid`,
`none` when no task matches. -/
def deleteFirst (tid : Int) : List Task → Option (List Task)
  | [] => none
  | t :: ts =>
      if t.id = tid then some ts
      else (deleteFirst tid ts).map (fun ts' => t :: ts')

/-- Python `TaskManager.complete_task`: on a match mark it, persist and return
`true`; otherwise return `false` with no state change and no I/O. -/
def TaskManager.complete_task (ok : Bool) (tid : Int) (s : TaskManager)
    (f : File) : Bool × TaskManager × File × List String :=
  match completeFirst tid s.tasks with
  | some ts' =>
      let s' : TaskManager := { s with tasks := ts' }
      let fm := TaskManager.save_tasks ok s' f
      (true, s', fm.1, fm.2)
  | none => (false, s, f, [])

/-- Python `TaskManager.delete_task`: on a match remove it, persist and return
`true`; otherwise return `false` with no state change and no I/O. -/
def TaskManager.delete_task (ok : Bool) (tid : Int) (s : TaskManager)
    (f : File) : Bool × TaskManager × File × List String :=
  match deleteFirst tid s.tasks with
  | some ts' =>
      let s' : TaskManager := { s with tasks := ts' }
      let fm := TaskManager.save_tasks ok s' f
      (true, s', fm.1, fm.2)
  | none => (false, s, f, [])

/-- One user-visible operation on a live store.  `reload` persists nothing
by itself; it constructs a fresh `TaskManager` over the current file,
modelling a process restart over the same backing location. -/
inductive Op where
  | add (now desc : String)
  | complete (tid : Int)
  | delete (tid : Int)
  | reload (now : String)

deriving instance DecidableEq for Op

def Op.isReload : Op → Bool
  | Op.reload _ => true
  | _ => false

/-- A running system: the store, the backing file, and the trace of ids
returned by `add_task` so far. -/
structure Run where
  s : TaskManager
  f : File
  trace : List Int

deriving instance DecidableEq for Run

/-- Execute one operation with successful persistence. -/
def step (r : Run) : Op → Run
  | Op.add now desc =>
      let o := TaskManager.add_task true now desc r.s r.f
      { s := o.2.1, f := o.2.2.1, trace := r.trace ++ [o.1.id] }
  | Op.complete tid =>
      let o := TaskManager.complete_task true tid r.s r.f
      { s := o.2.1, f := o.2.2.1, trace := r.trace }
  | Op.delete tid =>
      let o := TaskManager.delete_task true tid r.s r.f
      { s := o.2.1, f := o.2.2.1, trace := r.trace }
  | Op.reload now =>
      { s := (TaskManager.init now r.f).1, f := r.f, trace := r.trace }

def run (r : Run) (ops : List Op) : Run := ops.foldl step r

/-- A fresh store bound to a location with no pre-existing file. -/
def initRun : Run :=
  { s := { tasks := [], next_id := 1 }, f := File.missing, trace := [] }

theorem run_cons (r : Run) (op : Op) (ops : List Op) :
    run r (op :: ops) = run (step r op) ops := rfl

/-- Serialization round trip on a single task. -/
theorem from_dict_to_dict (now : String) (t : Task) :
    Task.from_dict now (Task.to_dict t) = t := by
  cases t; rfl

theorem map_from_dict_to_dict (now : String) (ts : List Task) :
    (ts.map Task.to_dict).map (Task.from_dict now) = ts := by
  induction ts with
  | nil => rfl
  | cons t ts ih => simp [List.map_cons, from_dict_to_dict, ih]

theorem completeFirst_eq_none {tid : Int} {ts : List Task}
    (h : ∀ t ∈ ts, t.id ≠ tid) : completeFirst tid ts = none := by
  induction ts with
  | nil => rfl
  | cons t ts ih =>
      have ht : t.id ≠ tid := h t (List.mem_cons_self t ts)
      simp only [completeFirst, if_neg ht,
        ih (fun u hu => h u (List.mem_cons_of_mem t hu)), Option.map_none']

theorem deleteFirst_eq_none {tid : Int} {ts : List Task}
    (h : ∀ t ∈ ts, t.id ≠ tid) : deleteFirst tid ts = none := by
  induction ts with
  | nil => rfl
  | cons t ts ih =>
      have ht : t.id ≠ tid := h t (List.mem_cons_self t ts)
      simp only [deleteFirst, if_neg ht,
        ih (fun u hu => h u (List.mem_cons_of_mem t hu)), Option.map_none']

theorem completeFirst_append (tid : Int) (l₁ : List Task) (t : Task)
    (l₂ : List Task) (h₁ : ∀ u ∈ l₁, u.id ≠ tid) (h₂ : t.id = tid) :
    completeFirst tid (l₁ ++ t :: l₂) =
      some (l₁ ++ { t with completed := true } :: l₂) := by
  induction l₁ with
  | nil => simp [completeFirst, h₂]
  | cons u l₁ ih =>
      have hu : u.id ≠ tid := h₁ u (List.mem_cons_self u l₁)
      simp only [List.cons_append, completeFirst, if_neg hu, List.append_eq,
        ih (fun v hv => h₁ v (List.mem_cons_of_mem u hv)), Option.map_some']

theorem deleteFirst_append (tid : Int) (l₁ : List Task) (t : Task)
    (l₂ : List Task) (h₁ : ∀ u ∈ l₁, u.id ≠ tid) (h₂ : t.id = tid) :
    deleteFirst tid (l₁ ++ t :: l₂) = some (l₁ ++ l₂) := by
  induction l₁ with
  | nil => simp [deleteFirst, h₂]
  | cons u l₁ ih =>
      have hu : u.id ≠ tid := h₁ u (List.mem_cons_self u l₁)
      simp only [List.cons_append, deleteFirst, if_neg hu, List.append_eq,
        ih (fun v hv => h₁ v (List.mem_cons_of_mem u hv)), Option.map_some']

/-- Any collection containing a task bearing `tid` splits at the first
such task. -/
theorem first_match (tid : Int) (ts : List Task) (h : ∃ t ∈ ts, t.id = tid) :
    ∃ l₁ t l₂, ts = l₁ ++ t :: l₂ ∧ t.id = tid ∧ ∀ u ∈ l₁, u.id ≠ tid := by
  induction ts with
  | nil => simp at h
  | cons t ts ih =>
      by_cases ht : t.id = tid
      · exact ⟨[], t, ts, rfl, ht, by simp⟩
      · obtain ⟨u, hu, hid⟩ := h
        rcases List.mem_cons.1 hu with rfl | hu'
        · exact absurd hid ht
        · obtain ⟨l₁, v, l₂, hsplit, hv, hl₁⟩ := ih ⟨u, hu', hid⟩
          refine ⟨t :: l₁, v, l₂, by rw [hsplit, List.cons_append], hv, ?_⟩
          intro w hw
          rcases List.mem_cons.1 hw with rfl | hw'
          · exact ht
          · exact hl₁ w hw'

theorem completeFirst_map_id {tid : Int} {ts ts' : List Task}
    (h : completeFirst tid ts = some ts') :
    ts'.map Task.id = ts.map Task.id := by
  induction ts generalizing ts' with
  | nil => simp [completeFirst] at h
  | cons t ts ih =>
      by_cases ht : t.id = tid
      · simp only [completeFirst, if_pos ht, Option.some.injEq] at h
        subst h; rfl
      · simp only [completeFirst, if_neg ht, Option.map_eq_some'] at h
        obtain ⟨u, hu, rfl⟩ := h
        simp [ih hu]

theorem deleteFirst_sublist {tid : Int} {ts ts' : List Task}
    (h : deleteFirst tid ts = some ts') : ts'.Sublist ts := by
  induction ts generalizing ts' with
  | nil => simp [deleteFirst] at h
  | cons t ts ih =>
      by_cases ht : t.id = tid
      · simp only [deleteFirst, if_pos ht, Option.some.injEq] at h
        subst h; exact List.sublist_cons_self t ts
      · simp only [deleteFirst, if_neg ht, Option.map_eq_some'] at h
        obtain ⟨u, hu, rfl⟩ := h
        exact List.Sublist.cons₂ t (ih hu)

theorem le_foldl_max (l : List Int) (x : Int) : x ≤ l.foldl max x := by
  induction l generalizing x with
  | nil => exact le_refl x
  | cons a l ih => exact le_trans (le_max_left x a) (ih (max x a))

theorem mem_le_foldl_max {l : List Int} {a : Int} (h : a ∈ l) (x : Int) :
    a ≤ l.foldl max x := by
  induction l generalizing x with
  | nil => simp at h
  | cons b l ih =>
      rcases List.mem_cons.1 h with rfl | h'
      · exact le_trans (le_max_right x a) (le_foldl_max l (max x a))
      · exact ih h' (max x b)

theorem step_add_eq (r : Run) (now desc : String) :
    step r (Op.add now desc) =
      { s := { tasks := r.s.tasks ++
                 [{ id := r.s.next_id, description := desc, completed := false,
                    created_at := now }],
               next_id := r.s.next_id + 1 },
        f := File.valid (List.map Task.to_dict (r.s.tasks ++
               [{ id := r.s.next_id, description := desc, completed := false,
                  created_at := now }])),
        trace := r.trace ++ [r.s.next_id] } := rfl

theorem step_complete_none (r : Run) (tid : Int)
    (h : completeFirst tid r.s.tasks = none) : step r (Op.complete tid) = r := by
  simp [step, TaskManager.complete_task, h]

theorem step_complete_some (r : Run) (tid : Int) (ts' : List Task)
    (h : completeFirst tid r.s.tasks = some ts') :
    step r (Op.complete tid) =
      { s := { r.s with tasks := ts' },
        f := File.valid (ts'.map Task.to_dict),
        trace := r.trace } := by
  simp [step, TaskManager.complete_task, h, TaskManager.save_tasks]

theorem step_delete_none (r : Run) (tid : Int)
    (h : deleteFirst tid r.s.tasks = none) : step r (Op.delete tid) = r := by
  simp [step, TaskManager.delete_task, h]

theorem step_delete_some (r : Run) (tid : Int) (ts' : List Task)
    (h : deleteFirst tid r.s.tasks = some ts') :
    step r (Op.delete tid) =
      { s := { r.s with tasks := ts' },
        f := File.valid (ts'.map Task.to_dict),
        trace := r.trace } := by
  simp [step, TaskManager.delete_task, h, TaskManager.save_tasks]

theorem step_reload_eq (r : Run) (now : String) :
    step r (Op.reload now) =
      { s := (TaskManager.init now r.f).1, f := r.f, trace := r.trace } := rfl

/-- The store invariant maintained by every operation: task ids are
pairwise distinct, every id is below the counter, and the file is either
still absent or mirrors the collection. -/
def Inv (r : Run) : Prop :=
  (r.s.tasks.map Task.id).Nodup ∧
  (∀ t ∈ r.s.tasks, t.id < r.s.next_id) ∧
  (r.f = File.missing ∨ r.f = File.valid (r.s.tasks.map Task.to_dict))

theorem inv_step (r : Run) (op : Op) (h : Inv r) : Inv (step r op) := by
  obtain ⟨hnd, hlt, hf⟩ := h
  cases op with
  | add now desc =>
      rw [step_add_eq]
      refine ⟨?_, ?_, Or.inr rfl⟩
      · rw [List.map_append]
        refine List.Nodup.append hnd (List.nodup_singleton _) ?_
        intro a ha hb
        simp only [List.map_cons, List.map_nil, List.mem_singleton] at hb
        obtain ⟨u, hu, rfl⟩ := List.mem_map.1 ha
        exact absurd hb (ne_of_lt (hlt u hu))
      · intro u hu
        rcases List.mem_append.1 hu with hu | hu
        · exact lt_trans (hlt u hu) (lt_add_one _)
        · rw [List.mem_singleton] at hu
          subst hu
          exact lt_add_one _
  | complete tid =>
      cases hc : completeFirst tid r.s.tasks with
      | none =>
          rw [step_complete_none r tid hc]
          exact ⟨hnd, hlt, hf⟩
      | some ts' =>
          rw [step_complete_some r tid ts' hc]
          have hids := completeFirst_map_id hc
          refine ⟨by rw [hids]; exact hnd, ?_, Or.inr rfl⟩
          intro u hu
          have hmem : u.id ∈ ts'.map Task.id := List.mem_map_of_mem Task.id hu
          rw [hids] at hmem
          obtain ⟨v, hv, hvu⟩ := List.mem_map.1 hmem
          rw [← hvu]
          exact hlt v hv
  | delete tid =>
      cases hc : deleteFirst tid r.s.tasks with
      | none =>
          rw [step_delete_none r tid hc]
          exact ⟨hnd, hlt, hf⟩
      | some ts' =>
          rw [step_delete_some r tid ts' hc]
          have hsub := deleteFirst_sublist hc
          refine ⟨hnd.sublist (hsub.map Task.id), ?_, Or.inr rfl⟩
          intro u hu
          exact hlt u (hsub.subset hu)
  | reload now =>
      rw [step_reload_eq]
      rcases hf with hf | hf
      · rw [hf]
        exact ⟨List.nodup_nil, by intro t ht; simp [TaskManager.init,
          TaskManager.load_tasks] at ht, Or.inl rfl⟩
      · rw [hf]
        simp only [TaskManager.init, TaskManager.load_tasks,
          map_from_dict_to_dict]
        cases hts : r.s.tasks with
        | nil =>
            exact ⟨List.nodup_nil, by intro t ht; simp at ht, Or.inr rfl⟩
        | cons t rest =>
            rw [hts] at hnd
            refine ⟨hnd, ?_, Or.inr rfl⟩
            intro u hu
            rcases List.mem_cons.1 hu with rfl | hu'
            · exact lt_of_le_of_lt (le_foldl_max _ _) (lt_add_one _)
            · have : u.id ∈ rest.map Task.id := List.mem_map_of_mem Task.id hu'
              exact lt_of_le_of_lt (mem_le_foldl_max this t.id) (lt_add_one _)

theorem inv_run (ops : List Op) (r : Run) (h : Inv r) : Inv (run r ops) := by
  induction ops generalizing r with
  | nil => exact h
  | cons op ops ih => exact ih (step r op) (inv_step r op h)

theorem inv_initRun : Inv initRun :=
  ⟨List.nodup_nil, by intro t ht; simp [initRun] at ht, Or.inl rfl⟩

/-- The trace invariant for runs with no reload: the ids handed out by
`add_task` are pairwise distinct and all below the counter. -/
def TraceInv (r : Run) : Prop :=
  r.trace.Nodup ∧ ∀ i ∈ r.trace, i < r.s.next_id

theorem traceInv_step (r : Run) (op : Op) (hop : op.isReload = false)
    (h : TraceInv r) : TraceInv (step r op) := by
  obtain ⟨hnd, hlt⟩ := h
  cases op with
  | add now desc =>
      rw [step_add_eq]
      constructor
      · refine List.Nodup.append hnd (List.nodup_singleton _) ?_
        intro a ha hb
        rw [List.mem_singleton] at hb
        exact absurd hb (ne_of_lt (hlt a ha))
      · intro i hi
        rcases List.mem_append.1 hi with hi | hi
        · exact lt_trans (hlt i hi) (lt_add_one _)
        · rw [List.mem_singleton] at hi
          subst hi
          exact lt_add_one _
  | complete tid =>
      cases hc : completeFirst tid r.s.tasks with
      | none =>
          rw [step_complete_none r tid hc]
          exact ⟨hnd, hlt⟩
      | some ts' =>
          rw [step_complete_some r tid ts' hc]
          exact ⟨hnd, hlt⟩
  | delete tid =>
      cases hc : deleteFirst tid r.s.tasks with
      | none =>
          rw [step_delete_none r tid hc]
          exact ⟨hnd, hlt⟩
      | some ts' =>
          rw [step_delete_some r tid ts' hc]
          exact ⟨hnd, hlt⟩
  | reload now => simp [Op.isReload] at hop

theorem traceInv_run (ops : List Op) (hops : ∀ op ∈ ops, op.isReload = false)
    (r : Run) (h : TraceInv r) : TraceInv (run r ops) := by
  induction ops generalizing r with
  | nil => exact h
  | cons op ops ih =>
      exact ih (fun o ho => hops o (List.mem_cons_of_mem op ho)) (step r op)
        (traceInv_step r op (hops op (List.mem_cons_self op ops)) h)

theorem traceInv_initRun : TraceInv initRun :=
  ⟨List.nodup_nil, by intro i hi; simp [initRun] at hi⟩

/-- C1 (amended): over every sequence of add, complete, delete and
hydration-from-persisted-file operations starting from a fresh store, no
two tasks in the collection ever share an id; and as long as the sequence
contains no hydration (a single process lifetime), an id once returned by
`add_task` is never returned again, even after its bearer is deleted.
(After hydration `next_id` is recomputed as max surviving id plus one, so
a deleted id above that max can be reassigned; see the counterexample.) -/
theorem C1_id_uniqueness (ops : List Op) :
    ((run initRun ops).s.tasks.map Task.id).Nodup ∧
    ((∀ op ∈ ops, op.isReload = false) → (run initRun ops).trace.Nodup) :=
  ⟨(inv_run ops initRun inv_initRun).1,
   fun hops => (traceInv_run ops hops initRun traceInv_initRun).1⟩

/-- Witness for C1 on a concrete reload-free sequence. -/
theorem C1_id_uniqueness_witness :
    ((run initRun [Op.add "T1" "a", Op.complete 1, Op.delete 1,
        Op.add "T2" "b"]).s.tasks.map Task.id).Nodup ∧
    (run initRun [Op.add "T1" "a", Op.complete 1, Op.delete 1,
        Op.add "T2" "b"]).trace.Nodup :=
  ⟨(C1_id_uniqueness _).1, (C1_id_uniqueness _).2 (by decide)⟩

/-- C1 counterexample: add tasks 1 and 2, delete task 2 (the file now
holds only task 1), reconstruct the store by hydrating that file
(`next_id` is recomputed as 1 + 1 = 2), then add again: `add_task`
returns id 2 a second time.  The trace of ids assigned by `add_task`
over the whole sequence is [1, 2, 2], so an id once assigned is assigned
again to a later task, refuting the claim as stated for sequences that
include hydration of a persisted file. -/
theorem C1_counterexample :
    (run initRun [Op.add "T1" "a", Op.add "T2" "b", Op.delete 2,
        Op.reload "T3", Op.add "T4" "c"]).trace = [1, 2, 2] ∧
    ¬ ((run initRun [Op.add "T1" "a", Op.add "T2" "b", Op.delete 2,
        Op.reload "T3", Op.add "T4" "c"]).trace.Nodup) := by
  decide

/-- The consecutive ids handed out from a counter starting at `k`. -/
def idsFrom (k : Int) : Nat → List Int
  | 0 => []
  | n + 1 => k :: idsFrom (k + 1) n

theorem trace_run_adds (pairs : List (String × String)) (r : Run) :
    (run r (pairs.map (fun p => Op.add p.1 p.2))).trace =
      r.trace ++ idsFrom r.s.next_id pairs.length := by
  induction pairs generalizing r with
  | nil => simp [run, idsFrom]
  | cons p ps ih =>
      rw [List.map_cons, run_cons, ih, step_add_eq]
      simp [idsFrom, List.append_assoc, List.singleton_append]

theorem idsFrom_eq (k : Int) (n : Nat) :
    idsFrom k n = (List.range n).map (fun i : Nat => k + (i : Int)) := by
  induction n generalizing k with
  | zero => rfl
  | succ n ih =>
      rw [idsFrom, ih, List.range_succ_eq_map, List.map_cons, List.map_map]
      congr 1
      · simp
      · apply List.map_congr_left
        intro i hi
        simp only [Function.comp_apply, Nat.cast_succ]
        ring

/-- C5: on a fresh store with no backing file, a sequence of n `add_task`
calls returns exactly the ids 1, 2, ..., n in order: strictly increasing
from 1, no gaps, no repeats. -/
theorem C5_sequential_ids (pairs : List (String × String)) :
    (run initRun (pairs.map (fun p => Op.add p.1 p.2))).trace =
      (List.range pairs.length).map (fun i : Nat => (i : Int) + 1) := by
  rw [trace_run_adds, idsFrom_eq]
  simp only [initRun, List.nil_append]
  apply List.map_congr_left
  intro i hi
  ring

/-- C3: constructing a store whose backing file is absent yields an empty
collection with `next_id = 1`; constructing one over an unreadable or
unparseable file also yields an empty collection with `next_id = 1`, the
failure only being reported on the output channel.  `TaskManager.init` is
a total function, so no exception reaches the caller in either case. -/
theorem C3_hydration_failures (now : String) :
    TaskManager.init now File.missing = ({ tasks := [], next_id := 1 }, []) ∧
    TaskManager.init now File.corrupt =
      ({ tasks := [], next_id := 1 }, ["Error loading tasks"]) :=
  ⟨rfl, rfl⟩

/-- C8: `list_tasks false` is exactly the subsequence of `list_tasks true`
made of the tasks with `completed = false`, in the same relative order
(it equals the order-preserving `filter`, and is a sublist of the full
listing).  Both calls are pure functions of the state, so neither mutates
the collection or `next_id`. -/
theorem C8_list_pending_filter (s : TaskManager) :
    TaskManager.list_tasks false s =
      (TaskManager.list_tasks true s).filter (fun t => !t.completed) ∧
    (TaskManager.list_tasks false s).Sublist (TaskManager.list_tasks true s) :=
  ⟨rfl, List.filter_sublist _⟩

/-- C9: deserializing a serialized task reproduces `id`, `description`,
`completed` and `created_at` exactly (serialization always includes the
`created_at` key); deserializing a record lacking `created_at` substitutes
the current timestamp instead of failing. -/
theorem C9_serialize_roundtrip (now : String) :
    (∀ t : Task, Task.from_dict now (Task.to_dict t) = t) ∧
    (∀ d : TaskDict, d.created_at = none →
      Task.from_dict now d =
        { id := d.id, description := d.description, completed := d.completed,
          created_at := now }) := by
  refine ⟨from_dict_to_dict now, ?_⟩
  intro d h
  cases d
  subst h
  rfl

/-- Witness for C9 at a concrete task and a concrete record lacking
`created_at`. -/
theorem C9_serialize_roundtrip_witness :
    Task.from_dict "T0" (Task.to_dict
      { id := 1, description := "Buy milk", completed := false, created_at := "T1" }) =
      { id := 1, description := "Buy milk", completed := false, created_at := "T1" } ∧
    Task.from_dict "T0"
      { id := 2, description := "Pay bills", completed := true, created_at := none } =
      { id := 2, description := "Pay bills", completed := true, created_at := "T0" } :=
  ⟨(C9_serialize_roundtrip "T0").1 _, (C9_serialize_roundtrip "T0").2 _ rfl⟩

/-- C4: completing or deleting an id that no task bears returns `false`
and changes nothing: the store (collection and `next_id`) is returned as
is, the file is untouched and nothing is printed, i.e. no persist
happens. -/
theorem C4_absent_id_noop (ok : Bool) (tid : Int) (s : TaskManager) (f : File)
    (h : ∀ t ∈ s.tasks, t.id ≠ tid) :
    TaskManager.complete_task ok tid s f = (false, s, f, []) ∧
    TaskManager.delete_task ok tid s f = (false, s, f, []) := by
  refine ⟨?_, ?_⟩
  · simp [TaskManager.complete_task, completeFirst_eq_none h]
  · simp [TaskManager.delete_task, deleteFirst_eq_none h]

/-- Witness for C4 on a one-task store and the absent id 7. -/
theorem C4_absent_id_noop_witness :
    TaskManager.complete_task true 7
      { tasks := [{ id := 1, description := "a", completed := false, created_at := "T0" }],
        next_id := 2 } File.missing =
      (false,
       { tasks := [{ id := 1, description := "a", completed := false, created_at := "T0" }],
         next_id := 2 }, File.missing, []) ∧
    TaskManager.delete_task true 7
      { tasks := [{ id := 1, description := "a", completed := false, created_at := "T0" }],
        next_id := 2 } File.missing =
      (false,
       { tasks := [{ id := 1, description := "a", completed := false, created_at := "T0" }],
         next_id := 2 }, File.missing, []) :=
  C4_absent_id_noop true 7
    { tasks := [{ id := 1, description := "a", completed := false, created_at := "T0" }],
      next_id := 2 } File.missing (by decide)

/-- C2: when the persist step fails, `add_task` still returns the newly
constructed task and the task stays appended to the in-memory collection
with `next_id` incremented (no rollback); `complete_task` and
`delete_task` on a present id still return `true`.  The failure leaves
the file as it was and is reported only on the output channel; every
operation is a total function, so nothing propagates to the caller. -/
theorem C2_persist_failure_no_rollback (now desc : String) (tid : Int)
    (s : TaskManager) (f : File) :
    TaskManager.add_task false now desc s f =
      ({ id := s.next_id, description := desc, completed := false, created_at := now },
       { tasks := s.tasks ++
           [{ id := s.next_id, description := desc, completed := false, created_at := now }],
         next_id := s.next_id + 1 },
       f, ["Error saving tasks"]) ∧
    ((∃ t ∈ s.tasks, t.id = tid) →
      (TaskManager.complete_task false tid s f).1 = true ∧
      (TaskManager.complete_task false tid s f).2.2.1 = f ∧
      (TaskManager.complete_task false tid s f).2.2.2 = ["Error saving tasks"] ∧
      (TaskManager.delete_task false tid s f).1 = true ∧
      (TaskManager.delete_task false tid s f).2.2.1 = f ∧
      (TaskManager.delete_task false tid s f).2.2.2 = ["Error saving tasks"]) := by
  refine ⟨rfl, ?_⟩
  intro h
  obtain ⟨l₁, t, l₂, hsplit, hid, hl₁⟩ := first_match tid s.tasks h
  simp [TaskManager.complete_task, TaskManager.delete_task, hsplit,
    completeFirst_append tid l₁ t l₂ hl₁ hid,
    deleteFirst_append tid l₁ t l₂ hl₁ hid, TaskManager.save_tasks]

/-- Witness for C2 on a one-task store, the present id 1, and a failing
write. -/
theorem C2_persist_failure_no_rollback_witness :
    TaskManager.add_task false "T1" "Buy milk"
      { tasks := [{ id := 1, description := "a", completed := false, created_at := "T0" }],
        next_id := 2 } File.missing =
      ({ id := 2, description := "Buy milk", completed := false, created_at := "T1" },
       { tasks := [{ id := 1, description := "a", completed := false, created_at := "T0" },
                   { id := 2, description := "Buy milk", completed := false, created_at := "T1" }],
         next_id := 3 },
       File.missing, ["Error saving tasks"]) ∧
    ((TaskManager.complete_task false 1
        { tasks := [{ id := 1, description := "a", completed := false, created_at := "T0" }],
          next_id := 2 } File.missing).1 = true ∧
     (TaskManager.complete_task false 1
        { tasks := [{ id := 1, description := "a", completed := false, created_at := "T0" }],
          next_id := 2 } File.missing).2.2.1 = File.missing ∧
     (TaskManager.complete_task false 1
        { tasks := [{ id := 1, description := "a", completed := false, created_at := "T0" }],
          next_id := 2 } File.missing).2.2.2 = ["Error saving tasks"] ∧
     (TaskManager.delete_task false 1
        { tasks := [{ id := 1, description := "a", completed := false, created_at := "T0" }],
          next_id := 2 } File.missing).1 = true ∧
     (TaskManager.delete_task false 1
        { tasks := [{ id := 1, description := "a", completed := false, created_at := "T0" }],
          next_id := 2 } File.missing).2.2.1 = File.missing ∧
     (TaskManager.delete_task false 1
        { tasks := [{ id := 1, description := "a", completed := false, created_at := "T0" }],
          next_id := 2 } File.missing).2.2.2 = ["Error saving tasks"]) :=
  ⟨(C2_persist_failure_no_rollback "T1" "Buy milk" 1
      { tasks := [{ id := 1, description := "a", completed := false, created_at := "T0" }],
        next_id := 2 } File.missing).1,
   (C2_persist_failure_no_rollback "T1" "Buy milk" 1
      { tasks := [{ id := 1, description := "a", completed := false, created_at := "T0" }],
        next_id := 2 } File.missing).2 (by decide)⟩

/-- The delete-then-add scenario of C6: add three tasks, delete id 2,
add one more. -/
def c6ops : List Op :=
  [Op.add "T1" "a", Op.add "T2" "b", Op.add "T3" "c", Op.delete 2,
   Op.add "T4" "Next"]

/-- C6: deleting a present id removes exactly the first task bearing it
(the prior tasks and the tasks after it are kept, in order), leaves
`next_id` untouched and returns `true`; concretely, after adding tasks
1, 2, 3 to a fresh store, deleting id 2 and adding again hands out id 4
(not 2) and the full listing is ids [1, 3, 4] in order. -/
theorem C6_delete_removes_first (ok : Bool) (tid : Int) (s : TaskManager)
    (f : File) (l₁ : List Task) (t : Task) (l₂ : List Task)
    (hsplit : s.tasks = l₁ ++ t :: l₂) (hid : t.id = tid)
    (hl₁ : ∀ u ∈ l₁, u.id ≠ tid) :
    ((TaskManager.delete_task ok tid s f).1 = true ∧
     (TaskManager.delete_task ok tid s f).2.1.tasks = l₁ ++ l₂ ∧
     (TaskManager.delete_task ok tid s f).2.1.next_id = s.next_id) ∧
    (TaskManager.list_tasks true (run initRun c6ops).s).map Task.id = [1, 3, 4] ∧
    (run initRun c6ops).trace = [1, 2, 3, 4] := by
  refine ⟨?_, by decide, by decide⟩
  simp [TaskManager.delete_task, hsplit, deleteFirst_append tid l₁ t l₂ hl₁ hid,
    TaskManager.save_tasks]

/-- Witness for C6: delete id 2 from the concrete three-task store. -/
theorem C6_delete_removes_first_witness :
    ((TaskManager.delete_task true 2
        { tasks := [{ id := 1, description := "a", completed := false, created_at := "T1" },
                    { id := 2, description := "b", completed := false, created_at := "T2" },
                    { id := 3, description := "c", completed := false, created_at := "T3" }],
          next_id := 4 } File.missing).1 = true ∧
     (TaskManager.delete_task true 2
        { tasks := [{ id := 1, description := "a", completed := false, created_at := "T1" },
                    { id := 2, description := "b", completed := false, created_at := "T2" },
                    { id := 3, description := "c", completed := false, created_at := "T3" }],
          next_id := 4 } File.missing).2.1.tasks =
       [{ id := 1, description := "a", completed := false, created_at := "T1" }] ++
       [{ id := 3, description := "c", completed := false, created_at := "T3" }] ∧
     (TaskManager.delete_task true 2
        { tasks := [{ id := 1, description := "a", completed := false, created_at := "T1" },
                    { id := 2, description := "b", completed := false, created_at := "T2" },
                    { id := 3, description := "c", completed := false, created_at := "T3" }],
          next_id := 4 } File.missing).2.1.next_id = 4) ∧
    (TaskManager.list_tasks true (run initRun c6ops).s).map Task.id = [1, 3, 4] ∧
    (run initRun c6ops).trace = [1, 2, 3, 4] :=
  C6_delete_removes_first true 2
    { tasks := [{ id := 1, description := "a", completed := false, created_at := "T1" },
                { id := 2, description := "b", completed := false, created_at := "T2" },
                { id := 3, description := "c", completed := false, created_at := "T3" }],
      next_id := 4 } File.missing
    [{ id := 1, description := "a", completed := false, created_at := "T1" }]
    { id := 2, description := "b", completed := false, created_at := "T2" }
    [{ id := 3, description := "c", completed := false, created_at := "T3" }]
    rfl rfl (by decide)

/-- Over a run consisting only of `add_task` operations, the file keeps
mirroring the collection once it does. -/
theorem run_adds_file (pairs : List (String × String)) (r : Run)
    (hf : r.f = File.valid (r.s.tasks.map Task.to_dict)) :
    (run r (pairs.map (fun p => Op.add p.1 p.2))).f =
      File.valid ((run r (pairs.map (fun p => Op.add p.1 p.2))).s.tasks.map
        Task.to_dict) := by
  induction pairs generalizing r with
  | nil => exact hf
  | cons p ps ih =>
      rw [List.map_cons, run_cons]
      exact ih (step r (Op.add p.1 p.2)) (by rw [step_add_eq])

/-- C7: hydrating a second store from the file written while a fresh
store performed a sequence of `add_task` calls reproduces the collection
exactly — same tasks, same order, same ids, descriptions, completion
flags and `created_at` values — and recomputes `next_id` as the maximum
loaded id plus one. -/
theorem C7_persistence_roundtrip (now₂ : String)
    (pairs : List (String × String)) :
    (TaskManager.init now₂
        (run initRun (pairs.map (fun p => Op.add p.1 p.2))).f).1.tasks =
      (run initRun (pairs.map (fun p => Op.add p.1 p.2))).s.tasks ∧
    (∀ m, maxTaskId (run initRun (pairs.map (fun p => Op.add p.1 p.2))).s.tasks =
        some m →
      (TaskManager.init now₂
        (run initRun (pairs.map (fun p => Op.add p.1 p.2))).f).1.next_id =
          m + 1) := by
  cases pairs with
  | nil => exact ⟨rfl, fun m hm => by simp [run, initRun, maxTaskId] at hm⟩
  | cons p ps =>
      have hf' := run_adds_file ps (step initRun (Op.add p.1 p.2))
        (by rw [step_add_eq])
      rw [List.map_cons, run_cons, hf']
      simp only [TaskManager.init, TaskManager.load_tasks, map_from_dict_to_dict]
      cases hts : (run (step initRun (Op.add p.1 p.2))
          (ps.map (fun p => Op.add p.1 p.2))).s.tasks with
      | nil =>
          refine ⟨rfl, ?_⟩
          intro m hm
          simp [maxTaskId] at hm
      | cons t rest =>
          refine ⟨rfl, ?_⟩
          intro m hm
          simp only [maxTaskId, Option.some.injEq] at hm
          subst hm
          rfl

/-- Witness for C7: persist two tasks, rehydrate, check the collection
and the recomputed counter. -/
theorem C7_persistence_roundtrip_witness :
    (TaskManager.init "T3"
        (run initRun ([("T1", "Buy milk"), ("T2", "Pay bills")].map
          (fun p => Op.add p.1 p.2))).f).1.tasks =
      (run initRun ([("T1", "Buy milk"), ("T2", "Pay bills")].map
        (fun p => Op.add p.1 p.2))).s.tasks ∧
    (TaskManager.init "T3"
        (run initRun ([("T1", "Buy milk"), ("T2", "Pay bills")].map
          (fun p => Op.add p.1 p.2))).f).1.next_id = 2 + 1 :=
  ⟨(C7_persistence_roundtrip "T3" [("T1", "Buy milk"), ("T2", "Pay bills")]).1,
   (C7_persistence_roundtrip "T3" [("T1", "Buy milk"), ("T2", "Pay bills")]).2
     2 (by decide)⟩

/-- C10: hydration validates nothing.  A parseable array is loaded
record by record into the collection — duplicate ids included — and
`next_id` is set to the maximum loaded id plus one; a later
`complete_task` or `delete_task` on a duplicated id only touches the
first matching task. -/
theorem C10_no_validation_on_load (now : String) (ds : List TaskDict) :
    (TaskManager.init now (File.valid ds)).1.tasks = ds.map (Task.from_dict now) ∧
    (∀ m, maxTaskId (ds.map (Task.from_dict now)) = some m →
      (TaskManager.init now (File.valid ds)).1.next_id = m + 1) ∧
    (∀ (ok : Bool) (tid : Int) (s : TaskManager) (f : File) (l₁ : List Task)
        (t : Task) (l₂ : List Task),
      s.tasks = l₁ ++ t :: l₂ → t.id = tid → (∀ u ∈ l₁, u.id ≠ tid) →
      (TaskManager.complete_task ok tid s f).2.1.tasks =
        l₁ ++ { t with completed := true } :: l₂ ∧
      (TaskManager.delete_task ok tid s f).2.1.tasks = l₁ ++ l₂) := by
  refine ⟨?_, ?_, ?_⟩
  · simp only [TaskManager.init, TaskManager.load_tasks]
    cases hd : ds.map (Task.from_dict now) with
    | nil => simp
    | cons t rest => simp
  · intro m hm
    simp only [TaskManager.init, TaskManager.load_tasks]
    cases hd : ds.map (Task.from_dict now) with
    | nil => rw [hd] at hm; simp [maxTaskId] at hm
    | cons t rest =>
        rw [hd] at hm
        simp only [maxTaskId, Option.some.injEq] at hm
        subst hm
        rfl
  · intro ok tid s f l₁ t l₂ hsplit hid hl₁
    constructor
    · simp [TaskManager.complete_task, hsplit,
        completeFirst_append tid l₁ t l₂ hl₁ hid, TaskManager.save_tasks]
    · simp [TaskManager.delete_task, hsplit,
        deleteFirst_append tid l₁ t l₂ hl₁ hid, TaskManager.save_tasks]

/-- Witness for C10 on a file whose records carry the duplicate id 1:
all three records are loaded, `next_id` becomes 6, and completing id 1
marks only the first of the two tasks bearing it. -/
theorem C10_no_validation_on_load_witness :
    (TaskManager.init "T0" (File.valid
        [{ id := 1, description := "a", completed := false, created_at := some "T1" },
         { id := 1, description := "b", completed := false, created_at := none },
         { id := 5, description := "c", completed := true, created_at := some "T2" }])).1.tasks =
      [{ id := 1, description := "a", completed := false, created_at := some "T1" },
       { id := 1, description := "b", completed := false, created_at := none },
       { id := 5, description := "c", completed := true, created_at := some "T2" }].map
        (Task.from_dict "T0") ∧
    (TaskManager.init "T0" (File.valid
        [{ id := 1, description := "a", completed := false, created_at := some "T1" },
         { id := 1, description := "b", completed := false, created_at := none },
         { id := 5, description := "c", completed := true, created_at := some "T2" }])).1.next_id =
      5 + 1 ∧
    (TaskManager.complete_task true 1
        { tasks := [{ id := 1, description := "a", completed := false, created_at := "T1" },
                    { id := 1, description := "b", completed := false, created_at := "T0" },
                    { id := 5, description := "c", completed := true, created_at := "T2" }],
          next_id := 6 } File.missing).2.1.tasks =
      [] ++ { id := 1, description := "a", completed := true, created_at := "T1" } ::
        [{ id := 1, description := "b", completed := false, created_at := "T0" },
         { id := 5, description := "c", completed := true, created_at := "T2" }] ∧
    (TaskManager.delete_task true 1
        { tasks := [{ id := 1, description := "a", completed := false, created_at := "T1" },
                    { id := 1, description := "b", completed := false, created_at := "T0" },
                    { id := 5, description := "c", completed := true, created_at := "T2" }],
          next_id := 6 } File.missing).2.1.tasks =
      [] ++ [{ id := 1, description := "b", completed := false, created_at := "T0" },
             { id := 5, description := "c", completed := true, created_at := "T2" }] :=
  ⟨(C10_no_validation_on_load "T0" _).1,
   (C10_no_validation_on_load "T0"
      [{ id := 1, description := "a", completed := false, created_at := some "T1" },
       { id := 1, description := "b", completed := false, created_at := none },
       { id := 5, description := "c", completed := true, created_at := some "T2" }]).2.1
     5 (by decide),
   ((C10_no_validation_on_load "T0"
      [{ id := 1, description := "a", completed := false, created_at := some "T1" },
       { id := 1, description := "b", completed := false, created_at := none },
       { id := 5, description := "c", completed := true, created_at := some "T2" }]).2.2
     true 1
     { tasks := [{ id := 1, description := "a", completed := false, created_at := "T1" },
                 { id := 1, description := "b", completed := false, created_at := "T0" },
                 { id := 5, description := "c", completed := true, created_at := "T2" }],
       next_id := 6 } File.missing
     []
     { id := 1, description := "a", completed := false, created_at := "T1" }
     [{ id := 1, description := "b", completed := false, created_at := "T0" },
      { id := 5, description := "c", completed := true, created_at := "T2" }]
     rfl rfl (by decide)).1,
   ((C10_no_validation_on_load "T0"
      [{ id := 1, description := "a", completed := false, created_at := some "T1" },
       { id := 1, description := "b", completed := false, created_at := none },
       { id := 5, description := "c", completed := true, created_at := some "T2" }]).2.2
     true 1
     { tasks := [{ id := 1, description := "a", completed := false, created_at := "T1" },
                 { id := 1, description := "b", completed := false, created_at := "T0" },
                 { id := 5, description := "c", completed := true, created_at := "T2" }],
       next_id := 6 } File.missing
     []
     { id := 1, description := "a", completed := false, created_at := "T1" }
     [{ id := 1, description := "b", completed := false, created_at := "T0" },
      { id := 5, description := "c", completed := true, created_at := "T2" }]
     rfl rfl (by decide)).2⟩

end TaskMgr
